import Mathlib

/-!
Shallow embedding of the AWS DNS-zone actuator
(`pkg/controller/dnszone/awsactuator.go`) of the hive repository, together
with theorems settling the frozen claims about it.

Provider interactions are modelled by oracles (pure functions supplying the
provider's responses) and every operation additionally returns the ordered
trace of provider calls it issued, so that claims about which calls are
made (batching limits, pagination, idempotent creation) are statable.
-/

deriving instance DecidableEq for Except

namespace HiveDNS

/-- The fixed ownership tag key (`hiveDNSZoneAWSTag` in the source). -/
def hiveDNSZoneAWSTag : String := "hive.openshift.io/dnszone"

/-- A Route53 tag (`route53.Tag`): key/value pair.  The Go code holds
`*string` fields and compares them through `aws.StringValue`; the lists the
actuator builds never contain nil entries, so plain strings suffice. -/
structure Tag where
  key : String
  value : String
deriving DecidableEq, Repr

/-- `tagEquals` from the source: equality of key and value. -/
def tagEquals (a b : Tag) : Bool :=
  a.key == b.key && a.value == b.value

/-- A Route53 hosted zone (`route53.HostedZone`): the fields the actuator
reads. -/
structure HostedZone where
  id : String
  name : String
  callerReference : String
deriving DecidableEq, Repr

/-- A structured or plain Go error.  `aws` is an `awserr.Error` carrying a
code and a message; `plain` is any other error (carrying its text). -/
inductive ProviderError where
  | aws (code : String) (message : String)
  | plain (message : String)
deriving DecidableEq, Repr

/-- `route53.ErrCodeHostedZoneAlreadyExists`. -/
def errCodeHostedZoneAlreadyExists : String := "HostedZoneAlreadyExists"

/-- `route53.ErrCodeNoSuchHostedZone`. -/
def errCodeNoSuchHostedZone : String := "NoSuchHostedZone"

/-- `route53.ErrCodeHostedZoneNotEmpty`. -/
def errCodeHostedZoneNotEmpty : String := "HostedZoneNotEmpty"

/-- The `awserr.Error` type-assertion plus code comparison performed in
`Create`. -/
def isAlreadyExists : ProviderError → Bool
  | .aws code _ => code == errCodeHostedZoneAlreadyExists
  | .plain _ => false

/-- The type-assertion plus code comparison performed in `Refresh`. -/
def isNoSuchHostedZone : ProviderError → Bool
  | .aws code _ => code == errCodeNoSuchHostedZone
  | .plain _ => false

/-- The type-assertion plus code comparison performed in `Delete`. -/
def isHostedZoneNotEmpty : ProviderError → Bool
  | .aws code _ => code == errCodeHostedZoneNotEmpty
  | .plain _ => false

/-- One `ChangeTagsForResource` payload: the `AddTags` and `RemoveTagKeys`
fields of a single provider mutation call. -/
structure ChangeTagsCall where
  addTags : List Tag
  removeTagKeys : List String
deriving DecidableEq, Repr

/-- A record set (`route53.ResourceRecordSet`): the fields the actuator
reads (`Name`, `Type` and the record values). -/
structure RecordSet where
  name : String
  rtype : String
  values : List String
deriving DecidableEq, Repr

/-- The three pagination cursor fields of `ListResourceRecordSetsInput`
(`StartRecordName`, `StartRecordType`, `StartRecordIdentifier`). -/
structure RecordCursor where
  startRecordName : Option String
  startRecordType : Option String
  startRecordIdentifier : Option String
deriving DecidableEq, Repr

/-- One page of `ListResourceRecordSets` output. -/
structure ListRecordsPage where
  resourceRecordSets : List RecordSet
  isTruncated : Option Bool
  nextRecordIdentifier : Option String
  nextRecordName : Option String
  nextRecordType : Option String
deriving DecidableEq, Repr

/-- One page of `ListHostedZonesByName` output.  The Go code reads the
truncation flag through `aws.BoolValue`, collapsing nil to `false`. -/
structure ListZonesPage where
  hostedZones : List HostedZone
  isTruncated : Bool
  nextDNSName : String
  nextHostedZoneId : String
deriving DecidableEq, Repr

/-- A provider call, as recorded in an operation's trace. -/
inductive PCall where
  | createZone (name callerReference : String)
  | listZonesByName (dnsName : String) (hostedZoneId : Option String)
  | listTags (zoneId : String)
  | changeTags (zoneId : String) (payload : ChangeTagsCall)
  | searchByTag (key value : String)
  | getZone (zoneId : String)
  | listRecords (cursor : RecordCursor)
  | changeRecords (changes : List RecordSet)
  | deleteZone (zoneId : String)
deriving DecidableEq, Repr

/-! ## Tag reconciliation (`syncTags`) -/

/-- One step of the diff loop in `syncTags`: scan the delete-candidate list
for the first entry equal (by `tagEquals`) to `t`; on a hit return the list
with that entry removed. -/
def eraseFirstMatch (t : Tag) : List Tag → Option (List Tag)
  | [] => none
  | x :: xs =>
    if tagEquals t x then some xs
    else (eraseFirstMatch t xs).map (fun r => x :: r)

/-- The diff phase of `syncTags`: every existing tag starts as a delete
candidate; each expected tag either removes its first exact match from the
candidate list or is appended to the add list.  Returns
`(toAdd, toDelete)`. -/
def syncTagsDiff : List Tag → List Tag → List Tag × List Tag
  | [], toDelete => ([], toDelete)
  | t :: rest, toDelete =>
    match eraseFirstMatch t toDelete with
    | some toDelete1 => syncTagsDiff rest toDelete1
    | none =>
      let p := syncTagsDiff rest toDelete
      (t :: p.1, p.2)

/-- The body of the batching loop of `syncTags`, with an explicit fuel
argument so that the recursion is structural; the loop itself never
exhausts the fuel the wrapper `tagBatches` supplies, since the index grows
by 10 each round. -/
def tagBatchesGo (toAdd : List Tag) (keys : List String) :
    Nat → Nat → List ChangeTagsCall
  | _, 0 => []
  | index, fuel + 1 =>
    if toAdd.length > index || keys.length > index then
      { addTags := (toAdd.drop index).take 10,
        removeTagKeys := (keys.drop index).take 10 } ::
        tagBatchesGo toAdd keys (index + 10) fuel
    else []

/-- The batching loop of `syncTags`: a shared `index` advances in strides
of 10 while either list still has entries past it; each round issues one
call whose chunks are `list[index : min (index+10) len]`.  (See
`tagBatches_eq` for the loop-shaped unfolding.) -/
def tagBatches (toAdd : List Tag) (keys : List String) (index : Nat) :
    List ChangeTagsCall :=
  tagBatchesGo toAdd keys index (max toAdd.length keys.length + 1)

/-- `syncTags` as a pure call-plan: the `ChangeTagsForResource` payloads it
issues, in order, for given existing and expected tag lists.  If both the
add and the delete set are empty the function returns early with no
calls. -/
def syncTagsCalls (existing expected : List Tag) : List ChangeTagsCall :=
  let p := syncTagsDiff expected existing
  if p.2.isEmpty && p.1.isEmpty then []
  else tagBatches p.1 (p.2.map Tag.key) 0

/-- Issue a sequence of `ChangeTagsForResource` calls, stopping at the
first one the provider fails. -/
def runChangeCalls (outcome : ChangeTagsCall → Option ProviderError)
    (zoneId : String) :
    List ChangeTagsCall → Except ProviderError Unit × List PCall
  | [] => (.ok (), [])
  | c :: cs =>
    match outcome c with
    | some e => (.error e, [PCall.changeTags zoneId c])
    | none =>
      let p := runChangeCalls outcome zoneId cs
      (p.1, PCall.changeTags zoneId c :: p.2)

/-! ## DNSZone spec, actuator state, conditions -/

/-- A status condition on the DNSZone (`hivev1.DNSZoneCondition`): type,
status (`"True"` / `"False"` / `"Unknown"`), reason and message. -/
structure DNSZoneCondition where
  ctype : String
  status : String
  reason : String
  message : String
deriving DecidableEq, Repr

/-- `hivev1.InsufficientCredentialsCondition`. -/
def insufficientCredentialsCondition : String := "InsufficientCredentials"

/-- `hivev1.AuthenticationFailureCondition`. -/
def authenticationFailureCondition : String := "AuthenticationFailure"

/-- Modelled from the spec: the reason codes (`accessGrantedReason`,
`accessDeniedReason`, `authenticationFailedReason`,
`authenticationSucceededReason`) are declared elsewhere in the repository
and their literal values are not under `src/`; only their use as fixed
reason constants matters to the claims. -/
def accessGrantedReason : String := "AccessGranted"

/-- See `accessGrantedReason`. -/
def accessDeniedReason : String := "AccessDenied"

/-- See `accessGrantedReason`. -/
def authenticationFailedReason : String := "AuthenticationFailed"

/-- See `accessGrantedReason`. -/
def authenticationSucceededReason : String := "AuthenticationSucceeded"

/-- The fixed redacted message stored when access is denied (the raw
provider message is deliberately suppressed). -/
def accessDeniedFixedMessage : String :=
  "AccessDenied error encountered (see controller logs for details)"

/-- Modelled from the spec: the two condition-update policies of
`controllerutils` (whose source is not under `src/`).  Per the spec,
clearing a signal uses an always-overwrite policy (the source passes
`UpdateConditionNever` there) and setting a signal true overwrites only
when the stored status, reason or message differs (the source passes
`UpdateConditionIfReasonOrMessageChange`). -/
inductive UpdateConditionCheck where
  | alwaysOverwrite
  | overwriteIfReasonOrMessageDiffers
deriving DecidableEq, Repr

/-- Replace the first condition of the given type, or append when none
exists (the spec's replace-by-type-or-append). -/
def setConditionList (t : String) (c : DNSZoneCondition) :
    List DNSZoneCondition → List DNSZoneCondition
  | [] => [c]
  | x :: xs => if x.ctype == t then c :: xs else x :: setConditionList t c xs

/-- Look up the stored condition of a given type. -/
def findCondition (t : String) (conds : List DNSZoneCondition) :
    Option DNSZoneCondition :=
  conds.find? (fun c => c.ctype == t)

/-- Modelled from the spec: `controllerutils.SetDNSZoneConditionWithChangeCheck`
(not under `src/`).  Mutation is replace-by-type-or-append; the update
policy decides whether an existing entry is overwritten; the boolean
reports whether the stored conditions changed. -/
def setDNSZoneConditionWithChangeCheck (conds : List DNSZoneCondition)
    (ctype status reason message : String) (check : UpdateConditionCheck) :
    List DNSZoneCondition × Bool :=
  let newCond : DNSZoneCondition :=
    { ctype := ctype, status := status, reason := reason, message := message }
  let conds1 :=
    match findCondition ctype conds with
    | none => setConditionList ctype newCond conds
    | some old =>
      let write :=
        match check with
        | .alwaysOverwrite => true
        | .overwriteIfReasonOrMessageDiffers =>
          old.status != status || old.reason != reason || old.message != message
      if write then setConditionList ctype newCond conds else conds
  (conds1, conds1 != conds)

/-- `setInsufficientCredentialsConditionToFalse` from the source. -/
def setInsufficientCredentialsConditionToFalse
    (conds : List DNSZoneCondition) : List DNSZoneCondition × Bool :=
  setDNSZoneConditionWithChangeCheck conds insufficientCredentialsCondition
    "False" accessGrantedReason "credentials are valid" .alwaysOverwrite

/-- `setInsufficientCredentialsConditionToTrue` from the source: the
message argument is deliberately ignored in favour of a fixed redacted
message. -/
def setInsufficientCredentialsConditionToTrue
    (conds : List DNSZoneCondition) (_message : String) :
    List DNSZoneCondition × Bool :=
  setDNSZoneConditionWithChangeCheck conds insufficientCredentialsCondition
    "True" accessDeniedReason accessDeniedFixedMessage
    .overwriteIfReasonOrMessageDiffers

/-- `setAuthenticationFailureConditionToFalse` from the source. -/
def setAuthenticationFailureConditionToFalse
    (conds : List DNSZoneCondition) : List DNSZoneCondition × Bool :=
  setDNSZoneConditionWithChangeCheck conds authenticationFailureCondition
    "False" authenticationSucceededReason "credentials authenticated"
    .alwaysOverwrite

/-- `setAuthenticationFailureConditionToTrue` from the source: stores the
raw provider message. -/
def setAuthenticationFailureConditionToTrue
    (conds : List DNSZoneCondition) (message : String) :
    List DNSZoneCondition × Bool :=
  setDNSZoneConditionWithChangeCheck conds authenticationFailureCondition
    "True" authenticationFailedReason message
    .overwriteIfReasonOrMessageDiffers

/-- `SetConditionsForError` from the source: classify an error into the
two health conditions; returns the updated conditions and whether
anything changed. -/
def SetConditionsForError (conds : List DNSZoneCondition)
    (err : ProviderError) : List DNSZoneCondition × Bool :=
  match err with
  | .plain _ =>
    let p1 := setInsufficientCredentialsConditionToFalse conds
    let p2 := setAuthenticationFailureConditionToFalse p1.1
    (p2.1, p1.2 || p2.2)
  | .aws code message =>
    let p1 :=
      if code == "AccessDeniedException" || code == "AccessDenied" then
        setInsufficientCredentialsConditionToTrue conds message
      else
        setInsufficientCredentialsConditionToFalse conds
    let p2 :=
      if code == "InvalidSignatureException" ||
          code == "UnrecognizedClientException" then
        setAuthenticationFailureConditionToTrue p1.1 message
      else
        setAuthenticationFailureConditionToFalse p1.1
    (p2.1, p1.2 || p2.2)

/-- The desired state the actuator reads from the DNSZone resource:
domain name (`Spec.Zone`), the resource UID (the idempotency token),
namespace/name (for the ownership tag) and the declared additional
tags. -/
structure DNSZoneSpec where
  zone : String
  uid : String
  metaNamespace : String
  metaName : String
  additionalTags : List Tag
deriving DecidableEq, Repr

/-- `expectedTags` from the source: the fixed ownership tag followed by
the user-declared additional tags. -/
def expectedTags (dz : DNSZoneSpec) : List Tag :=
  { key := hiveDNSZoneAWSTag,
    value := dz.metaNamespace ++ "/" ++ dz.metaName } :: dz.additionalTags

/-- The per-pass mutable state of the actuator: the cached hosted zone,
its cached tags, and the zone ID written to the DNSZone status. -/
structure ActuatorState where
  hostedZone : Option HostedZone
  currentHostedZoneTags : List Tag
  statusZoneID : Option String
deriving DecidableEq, Repr

/-- Modelled from the spec: `controllerutils.Dotted` (not under `src/`)
appends the trailing separator when absent ("the domain plus its trailing
separator"). -/
def Dotted (s : String) : String :=
  if s.data.getLast? = some '.' then s else s ++ "."

/-! ## UpdateMetadata -/

/-- `UpdateMetadata` from the source: requires a populated hosted zone and
then syncs tags (the only metadata currently reconciled). -/
def UpdateMetadata (dz : DNSZoneSpec) (st : ActuatorState)
    (outcome : ChangeTagsCall → Option ProviderError) :
    Except ProviderError Unit × ActuatorState × List PCall :=
  match st.hostedZone with
  | none => (.error (.plain "hostedZone is unpopulated"), st, [])
  | some hz =>
    let p := runChangeCalls outcome hz.id
      (syncTagsCalls st.currentHostedZoneTags (expectedTags dz))
    (p.1, st, p.2)

/-! ## Create and the caller-reference search -/

/-- Scan one page of hosted zones, as the inner loop of
`findZoneByCallerReference` does: a caller-reference match returns that
zone; otherwise an entry whose name differs from the target domain
terminates the search as not-found; otherwise continue. -/
def scanZonesPage (callerRef domain : String) :
    List HostedZone → Option (Except ProviderError HostedZone)
  | [] => none
  | z :: zs =>
    if z.callerReference == callerRef then some (.ok z)
    else if z.name != domain then some (.error (.plain "Hosted zone not found"))
    else scanZonesPage callerRef domain zs

/-- `findZoneByCallerReference` from the source.  The provider's
successive `ListHostedZonesByName` responses are supplied as a list; the
search feeds each page's next-name/next-zone-id cursor into the following
call and stops at the first page that is not truncated. -/
def findZoneByCallerReference (domain callerRef : String) :
    List (Except ProviderError ListZonesPage) → String → Option String →
    Except ProviderError HostedZone × List PCall
  | [], _, _ => (.error (.plain "no further provider responses modelled"), [])
  | resp :: rest, nextName, nextZoneId =>
    let call := PCall.listZonesByName nextName nextZoneId
    match resp with
    | .error e => (.error e, [call])
    | .ok page =>
      match scanZonesPage callerRef domain page.hostedZones with
      | some r => (r, [call])
      | none =>
        if page.isTruncated then
          let p := findZoneByCallerReference domain callerRef rest
            page.nextDNSName (some page.nextHostedZoneId)
          (p.1, call :: p.2)
        else (.error (.plain "Hosted zone not found"), [call])

/-- Stated from the claim: the search over the flattened, name-ordered
zone listing — first entry whose caller reference equals the token wins;
the first entry whose name no longer equals the target domain, or
exhaustion of the listing, yields not-found.  Used to show the paginated
source search refines this single-list description. -/
def searchByCallerReferenceSpec (callerRef domain : String) :
    List HostedZone → Except ProviderError HostedZone
  | [] => .error (.plain "Hosted zone not found")
  | z :: zs =>
    if z.callerReference == callerRef then .ok z
    else if z.name != domain then .error (.plain "Hosted zone not found")
    else searchByCallerReferenceSpec callerRef domain zs

/-- A well-formed paginated listing: at least one page, every page before
the last reports truncation, the last does not. -/
def goodPages : List ListZonesPage → Bool
  | [] => false
  | [p] => !p.isTruncated
  | p :: rest => p.isTruncated && goodPages rest

/-- The provider responses `Create` consumes. -/
structure CreateEnv where
  createResult : Except ProviderError HostedZone
  listZonesResponses : List (Except ProviderError ListZonesPage)
  listTagsResult : String → Except ProviderError (List Tag)
  changeTagsOutcome : ChangeTagsCall → Option ProviderError

/-- `Create` from the source: issue the create call with the DNSZone UID
as caller reference; on an already-exists error resolve the existing zone
by caller reference; on any other error abort.  Then fetch the zone's
tags, cache the zone, write the status zone ID and sync tags. -/
def Create (env : CreateEnv) (dz : DNSZoneSpec) (st : ActuatorState) :
    Except ProviderError Unit × ActuatorState × List PCall :=
  let createCall := PCall.createZone dz.zone dz.uid
  let zoneStep : Except ProviderError HostedZone × List PCall :=
    match env.createResult with
    | .ok hz => (.ok hz, [createCall])
    | .error e =>
      if isAlreadyExists e then
        let p := findZoneByCallerReference dz.zone dz.uid
          env.listZonesResponses dz.zone none
        (p.1, createCall :: p.2)
      else (.error e, [createCall])
  match zoneStep with
  | (.error e, tr) => (.error e, st, tr)
  | (.ok hz, tr) =>
    match env.listTagsResult hz.id with
    | .error e => (.error e, st, tr ++ [PCall.listTags hz.id])
    | .ok existing =>
      let st1 : ActuatorState :=
        { hostedZone := some hz,
          currentHostedZoneTags := existing,
          statusZoneID := some hz.id }
      let p := runChangeCalls env.changeTagsOutcome hz.id
        (syncTagsCalls existing (expectedTags dz))
      (p.1, st1, tr ++ [PCall.listTags hz.id] ++ p.2)

/-- Whether a trace entry is a zone-creation call. -/
def isCreateCall : PCall → Bool
  | .createZone _ _ => true
  | _ => false

/-- Number of zone-creation calls in a trace. -/
def countCreateCalls (tr : List PCall) : Nat :=
  (tr.filter isCreateCall).length

/-! ## Refresh -/

/-- The provider responses `Refresh` consumes. -/
structure RefreshEnv where
  tagSearch : Except ProviderError (List String)
  getZone : String → Except ProviderError HostedZone
  listTags : String → Except ProviderError (List Tag)

/-- The candidate-fetch loop of `Refresh`: fetch each collected zone ID;
a no-such-hosted-zone error skips the candidate; any other error aborts;
a fetched zone whose name differs from the expected dotted domain is
skipped; a matching zone becomes the retained candidate (later matches
overwrite earlier ones).  Returns the outcome, the retained zone and the
trace of fetch calls. -/
def refreshLoop (getZone : String → Except ProviderError HostedZone)
    (expectedName : String) :
    List String → Option HostedZone →
    Except ProviderError Unit × Option HostedZone × List PCall
  | [], acc => (.ok (), acc, [])
  | zid :: rest, acc =>
    let call := PCall.getZone zid
    match getZone zid with
    | .error e =>
      if isNoSuchHostedZone e then
        let p := refreshLoop getZone expectedName rest acc
        (p.1, p.2.1, call :: p.2.2)
      else (.error e, acc, [call])
    | .ok z =>
      if z.name != expectedName then
        let p := refreshLoop getZone expectedName rest acc
        (p.1, p.2.1, call :: p.2.2)
      else
        let p := refreshLoop getZone expectedName rest (some z)
        (p.1, p.2.1, call :: p.2.2)

/-- The candidates that resolve to a zone whose name matches the expected
dotted domain, in collection order. -/
def matchingZones (getZone : String → Except ProviderError HostedZone)
    (expectedName : String) (ids : List String) : List HostedZone :=
  ids.filterMap fun zid =>
    match getZone zid with
    | .ok z => if z.name == expectedName then some z else none
    | .error _ => none

/-- Record a retained candidate into the actuator state (the source sets
`a.hostedZone` and immediately writes the status zone ID via
`modifyStatus`). -/
def applyMatch (st : ActuatorState) : Option HostedZone → ActuatorState
  | none => st
  | some z => { st with hostedZone := some z, statusZoneID := some z.id }

/-- `Refresh` from the source: take the zone ID from status when present,
otherwise search by the ownership tag; an empty candidate list is a
non-error outcome; otherwise fetch candidates (`refreshLoop`), and when a
zone is retained load and cache its tags. -/
def Refresh (env : RefreshEnv) (dz : DNSZoneSpec) (st : ActuatorState) :
    Except ProviderError Unit × ActuatorState × List PCall :=
  let searchTag := PCall.searchByTag hiveDNSZoneAWSTag
    (dz.metaNamespace ++ "/" ++ dz.metaName)
  let idsStep : Except ProviderError (List String) × List PCall :=
    match st.statusZoneID with
    | some zid => (.ok [zid], [])
    | none =>
      match env.tagSearch with
      | .error e => (.error e, [searchTag])
      | .ok ids => (.ok ids, [searchTag])
  match idsStep with
  | (.error e, tr0) => (.error e, st, tr0)
  | (.ok ids, tr0) =>
    if ids.isEmpty then (.ok (), st, tr0)
    else
      let st0 : ActuatorState := { st with hostedZone := none }
      let q := refreshLoop env.getZone (Dotted dz.zone) ids none
      match q.1 with
      | .error e => (.error e, applyMatch st0 q.2.1, tr0 ++ q.2.2)
      | .ok _ =>
        match q.2.1 with
        | none => (.ok (), st0, tr0 ++ q.2.2)
        | some z =>
          let st1 := applyMatch st0 (some z)
          match env.listTags z.id with
          | .error e => (.error e, st1, tr0 ++ q.2.2 ++ [PCall.listTags z.id])
          | .ok tags =>
            (.ok (), { st1 with currentHostedZoneTags := tags },
             tr0 ++ q.2.2 ++ [PCall.listTags z.id])

/-! ## Record sweep and Delete -/

/-- The exclusion test of the sweep: the two system records created with
the hosted zone — the NS and SOA records at the dotted apex name. -/
def protectedRecord (zone : String) (r : RecordSet) : Bool :=
  r.name == Dotted zone && (r.rtype == "NS" || r.rtype == "SOA")

/-- The initial record cursor: all three start fields unset. -/
def emptyRecordCursor : RecordCursor :=
  { startRecordName := none, startRecordType := none,
    startRecordIdentifier := none }

/-- `DeleteAWSRecordSets` from the source: page through the zone's record
sets (successive provider responses supplied as a list), delete every
non-protected record of a page in one change, and continue — advancing
the three cursor fields — exactly while the page reports truncation. -/
def DeleteAWSRecordSets (zone : String)
    (changeOutcome : List RecordSet → Option ProviderError) :
    List (Except ProviderError ListRecordsPage) → RecordCursor →
    Except ProviderError Unit × List PCall
  | [], _ => (.error (.plain "no further provider responses modelled"), [])
  | resp :: rest, cursor =>
    let call := PCall.listRecords cursor
    match resp with
    | .error e => (.error e, [call])
    | .ok page =>
      let changes := page.resourceRecordSets.filter
        (fun r => !protectedRecord zone r)
      let step : Option ProviderError × List PCall :=
        if changes.isEmpty then (none, [])
        else
          match changeOutcome changes with
          | some e => (some e, [PCall.changeRecords changes])
          | none => (none, [PCall.changeRecords changes])
      match step.1 with
      | some e => (.error e, call :: step.2)
      | none =>
        if page.isTruncated == some true then
          let p := DeleteAWSRecordSets zone changeOutcome rest
            { startRecordName := page.nextRecordName,
              startRecordType := page.nextRecordType,
              startRecordIdentifier := page.nextRecordIdentifier }
          (p.1, call :: step.2 ++ p.2)
        else (.ok (), call :: step.2)

/-- Stated from the claim: the intended call trace of the sweep — visit a
page, submit its non-protected records as one deletion change when any
exist, and recurse with the advanced cursor exactly when the page is
truncated. -/
def sweepSpecTrace (zone : String) :
    List ListRecordsPage → RecordCursor → List PCall
  | [], _ => []
  | page :: rest, cursor =>
    let keep := page.resourceRecordSets.filter
      (fun r => !protectedRecord zone r)
    PCall.listRecords cursor ::
      ((if keep.isEmpty then [] else [PCall.changeRecords keep]) ++
        (if page.isTruncated == some true then
          sweepSpecTrace zone rest
            { startRecordName := page.nextRecordName,
              startRecordType := page.nextRecordType,
              startRecordIdentifier := page.nextRecordIdentifier }
        else []))

/-- The level at which the final "Cannot delete hosted zone" message is
logged. -/
inductive LogLevel where
  | info
  | error
deriving DecidableEq, Repr

/-- `Delete` from the source: requires a populated hosted zone, sweeps the
record sets, then issues the zone deletion.  A deletion failure is logged
at info level when the provider reports the zone as not empty and at error
level otherwise — and the error is returned either way.  The result
carries the (unchanged) actuator state, the level of the final log message
when deletion failed, and the call trace. -/
def Delete (dz : DNSZoneSpec) (st : ActuatorState)
    (recordsResponses : List (Except ProviderError ListRecordsPage))
    (changeOutcome : List RecordSet → Option ProviderError)
    (deleteZoneResult : Option ProviderError) :
    Except ProviderError Unit × ActuatorState × Option LogLevel × List PCall :=
  match st.hostedZone with
  | none => (.error (.plain "hostedZone is unpopulated"), st, none, [])
  | some hz =>
    let sweep := DeleteAWSRecordSets dz.zone changeOutcome recordsResponses
      emptyRecordCursor
    match sweep.1 with
    | .error e => (.error e, st, none, sweep.2)
    | .ok _ =>
      let dcall := PCall.deleteZone hz.id
      match deleteZoneResult with
      | none => (.ok (), st, none, sweep.2 ++ [dcall])
      | some e =>
        let lvl := if isHostedZoneNotEmpty e then LogLevel.info
          else LogLevel.error
        (.error e, st, some lvl, sweep.2 ++ [dcall])

/-! ## GetNameServers -/

/-- `GetNameServers` from the source: requires a populated hosted zone;
issues one record query scoped to the apex NS record (`MaxItems` 1) and
validates that exactly one record of type NS, named the domain plus the
trailing dot, was returned; on success returns the record values in the
provider's order. -/
def GetNameServers (dz : DNSZoneSpec) (st : ActuatorState)
    (listResult : Except ProviderError ListRecordsPage) :
    Except ProviderError (List String) × ActuatorState × List PCall :=
  match st.hostedZone with
  | none => (.error (.plain "hostedZone is unpopulated"), st, [])
  | some _ =>
    let call := PCall.listRecords
      { startRecordName := some dz.zone, startRecordType := some "NS",
        startRecordIdentifier := none }
    match listResult with
    | .error e => (.error e, st, [call])
    | .ok resp =>
      match resp.resourceRecordSets with
      | [r] =>
        if r.rtype != "NS" then
          (.error (.plain "name server record not found"), st, [call])
        else if r.name != dz.zone ++ "." then
          (.error (.plain ("name server record not found for domain " ++
            dz.zone)), st, [call])
        else (.ok r.values, st, [call])
      | l =>
        (.error (.plain ("unexpected number of recordsets returned: " ++
          toString l.length)), st, [call])

/-! ## Concrete fixtures used by witnesses and counterexamples -/

/-- Existing tags with a duplicate entry. -/
def cexExistingTags : List Tag := [⟨"k", "v"⟩, ⟨"k", "v"⟩]

/-- Expected tags containing the same single tag. -/
def cexExpectedTags : List Tag := [⟨"k", "v"⟩]

/-- A pair of distinct tags. -/
def wTagA : Tag := ⟨"a", "1"⟩

/-- A pair of distinct tags. -/
def wTagB : Tag := ⟨"b", "2"⟩

/-- Twelve tags with distinct keys, to exercise batching. -/
def wTwelveTags : List Tag :=
  [⟨"k1", "v"⟩, ⟨"k2", "v"⟩, ⟨"k3", "v"⟩, ⟨"k4", "v"⟩, ⟨"k5", "v"⟩,
   ⟨"k6", "v"⟩, ⟨"k7", "v"⟩, ⟨"k8", "v"⟩, ⟨"k9", "v"⟩, ⟨"k10", "v"⟩,
   ⟨"k11", "v"⟩, ⟨"k12", "v"⟩]

/-- A sweep scenario: a truncated first page holding the two protected
apex records and an ordinary record, then a final page. -/
def wSweepPage1 : ListRecordsPage :=
  { resourceRecordSets :=
      [⟨"z.example.com.", "NS", ["ns1.example.net"]⟩,
       ⟨"z.example.com.", "SOA", ["soa.example.net"]⟩,
       ⟨"a.z.example.com.", "A", ["192.0.2.1"]⟩],
    isTruncated := some true,
    nextRecordIdentifier := none,
    nextRecordName := some "b.z.example.com.",
    nextRecordType := some "TXT" }

/-- Second page of the sweep scenario. -/
def wSweepPage2 : ListRecordsPage :=
  { resourceRecordSets := [⟨"b.z.example.com.", "TXT", ["hello"]⟩],
    isTruncated := some false,
    nextRecordIdentifier := none,
    nextRecordName := none,
    nextRecordType := none }

/-- A resolved hosted zone. -/
def wHostedZone : HostedZone := ⟨"Z1", "z.example.com.", "token-123"⟩

/-- Actuator state with the hosted zone populated. -/
def wStatePopulated : ActuatorState := ⟨some wHostedZone, [], some "Z1"⟩

/-- Actuator state with no hosted zone cached. -/
def wStateUnpopulated : ActuatorState := ⟨none, [], none⟩

/-- A concrete DNSZone resource. -/
def wDNSZone : DNSZoneSpec := ⟨"z.example.com", "token-123", "ns", "dz", []⟩

/-- The provider's zone-not-empty error. -/
def wNotEmptyErr : ProviderError := .aws "HostedZoneNotEmpty" "zone has records"

/-- A record sweep consisting of a single, final, empty page. -/
def wEmptySweepResponses : List (Except ProviderError ListRecordsPage) :=
  [.ok ⟨[], some false, none, none, none⟩]

/-- The singleton NS record page `GetNameServers` expects. -/
def wNSPage : ListRecordsPage :=
  ⟨[⟨"z.example.com.", "NS", ["ns1.example.net", "ns2.example.net"]⟩],
   none, none, none, none⟩

/-- A zone-fetch oracle: two candidates match the dotted domain, one is
gone, one has another name, anything else is a hard failure. -/
def wGetZone : String → Except ProviderError HostedZone
  | "A" => .ok ⟨"A", "z.example.com.", "r1"⟩
  | "B" => .error (.aws "NoSuchHostedZone" "gone")
  | "C" => .ok ⟨"C", "z.example.com.", "r2"⟩
  | "D" => .ok ⟨"D", "other.example.com.", "r3"⟩
  | _ => .error (.plain "boom")

/-- A refresh environment whose tag search collects four candidates. -/
def wRefreshEnv : RefreshEnv :=
  { tagSearch := .ok ["A", "B", "C", "D"], getZone := wGetZone,
    listTags := fun _ => .ok [⟨"k", "v"⟩] }

/-- A refresh environment whose tag search collects nothing. -/
def wRefreshEnvEmpty : RefreshEnv :=
  { tagSearch := .ok [], getZone := wGetZone,
    listTags := fun _ => .ok [] }

/-- A refresh environment that collects one candidate whose fetch fails
hard. -/
def wRefreshEnvHardError : RefreshEnv :=
  { tagSearch := .ok ["X"], getZone := wGetZone,
    listTags := fun _ => .ok [] }

/-- A final listing page whose entry carries the supplied idempotency
token (the provider returns dotted zone names). -/
def wZonesPage : ListZonesPage :=
  { hostedZones := [⟨"Z1", "z.example.com.", "token-123"⟩],
    isTruncated := false, nextDNSName := "", nextHostedZoneId := "" }

/-- A final listing page already past the target domain name. -/
def wZonesPageMiss : ListZonesPage :=
  { hostedZones := [⟨"Z9", "zz.example.com.", "other-token"⟩],
    isTruncated := false, nextDNSName := "", nextHostedZoneId := "" }

/-- A create environment in which the zone already exists and the listing
resolves it by caller reference. -/
def wCreateEnv : CreateEnv :=
  { createResult := .error (.aws "HostedZoneAlreadyExists" "exists"),
    listZonesResponses := [wZonesPage].map Except.ok,
    listTagsResult := fun _ => .ok [],
    changeTagsOutcome := fun _ => none }

/-- A create environment in which the zone already exists but the listing
holds no matching caller reference. -/
def wCreateEnvMiss : CreateEnv :=
  { createResult := .error (.aws "HostedZoneAlreadyExists" "exists"),
    listZonesResponses := [wZonesPageMiss].map Except.ok,
    listTagsResult := fun _ => .ok [],
    changeTagsOutcome := fun _ => none }

/-- A create environment in which creation fails with an unrelated
error. -/
def wCreateEnvOtherError : CreateEnv :=
  { createResult := .error (.plain "throttled"),
    listZonesResponses := [],
    listTagsResult := fun _ => .ok [],
    changeTagsOutcome := fun _ => none }

end HiveDNS

namespace HiveDNS

/-! ## Helper lemmas -/

theorem tagBatchesGo_succ (toAdd : List Tag) (keys : List String)
    (index fuel : Nat) :
    tagBatchesGo toAdd keys index (fuel + 1) =
      if toAdd.length > index || keys.length > index then
        { addTags := (toAdd.drop index).take 10,
          removeTagKeys := (keys.drop index).take 10 } ::
          tagBatchesGo toAdd keys (index + 10) fuel
      else [] := rfl

theorem tagBatchesGo_congr (toAdd : List Tag) (keys : List String) :
    ∀ fuel fuel₂ index,
      max toAdd.length keys.length ≤ index + 10 * fuel →
      max toAdd.length keys.length ≤ index + 10 * fuel₂ →
      tagBatchesGo toAdd keys index (fuel + 1) =
        tagBatchesGo toAdd keys index (fuel₂ + 1) := by
  intro fuel
  induction fuel with
  | zero =>
    intro fuel₂ index h1 _
    have ha : ¬ (toAdd.length > index || keys.length > index) = true := by
      simp only [Bool.or_eq_true, decide_eq_true_eq, gt_iff_lt]
      omega
    rw [tagBatchesGo_succ, tagBatchesGo_succ, if_neg ha, if_neg ha]
  | succ f ih =>
    intro fuel₂ index h1 h2
    by_cases hg : (toAdd.length > index || keys.length > index) = true
    · have hlt : index < max toAdd.length keys.length := by
        simp only [Bool.or_eq_true, decide_eq_true_eq, gt_iff_lt] at hg
        omega
      obtain ⟨f₂, rfl⟩ : ∃ f₂, fuel₂ = f₂ + 1 := by
        cases fuel₂ with
        | zero => omega
        | succ n => exact ⟨n, rfl⟩
      rw [tagBatchesGo_succ toAdd keys index (f + 1),
        tagBatchesGo_succ toAdd keys index (f₂ + 1), if_pos hg, if_pos hg,
        ih f₂ (index + 10) (by omega) (by omega)]
    · rw [tagBatchesGo_succ toAdd keys index (f + 1),
        tagBatchesGo_succ toAdd keys index fuel₂, if_neg hg, if_neg hg]

theorem tagBatches_eq (toAdd : List Tag) (keys : List String) (index : Nat) :
    tagBatches toAdd keys index =
      if toAdd.length > index || keys.length > index then
        { addTags := (toAdd.drop index).take 10,
          removeTagKeys := (keys.drop index).take 10 } ::
          tagBatches toAdd keys (index + 10)
      else [] := by
  unfold tagBatches
  by_cases hg : (toAdd.length > index || keys.length > index) = true
  · have hlt : index < max toAdd.length keys.length := by
      simp only [Bool.or_eq_true, decide_eq_true_eq, gt_iff_lt] at hg
      omega
    obtain ⟨m, hm⟩ : ∃ m, max toAdd.length keys.length = m + 1 := by
      cases hmax : max toAdd.length keys.length with
      | zero => omega
      | succ n => exact ⟨n, rfl⟩
    rw [hm, tagBatchesGo_succ, if_pos hg, if_pos hg,
      tagBatchesGo_congr toAdd keys m (m + 1) (index + 10)
        (by omega) (by omega)]
  · rw [tagBatchesGo_succ, if_neg hg, if_neg hg]

theorem tagEquals_eq_true_iff (a b : Tag) : tagEquals a b = true ↔ a = b := by
  cases a
  cases b
  simp [tagEquals, Tag.mk.injEq]

theorem eraseFirstMatch_eq (t : Tag) (l : List Tag) :
    eraseFirstMatch t l = if t ∈ l then some (l.erase t) else none := by
  induction l with
  | nil => simp [eraseFirstMatch]
  | cons x xs ih =>
    simp only [eraseFirstMatch, ih, tagEquals_eq_true_iff]
    by_cases hx : t = x
    · subst hx
      simp [List.erase_cons_head]
    · have hbeq : (x == t) = false := by
        simp [beq_iff_eq]
        exact fun hcontra => hx hcontra.symm
      rw [if_neg hx]
      by_cases hm : t ∈ xs
      · simp [hm, hx, List.mem_cons, List.erase_cons, hbeq]
      · have : ¬ t ∈ x :: xs := by
          simp [List.mem_cons, hx, hm]
        simp [hm, this]

theorem syncTagsDiff_of_perm (expected existing : List Tag)
    (h : expected.Perm existing) : syncTagsDiff expected existing = ([], []) := by
  induction expected generalizing existing with
  | nil =>
    have : existing = [] := h.symm.eq_nil
    subst this
    rfl
  | cons t rest ih =>
    have ht : t ∈ existing := h.subset (List.mem_cons_self t rest)
    have hrest : rest.Perm (existing.erase t) :=
      (h.trans (List.perm_cons_erase ht)).cons_inv
    simp only [syncTagsDiff, eraseFirstMatch_eq, ht, if_pos]
    exact ih (existing.erase t) hrest

/-! ## C2 -/

/-- C2 counterexample: with a duplicated existing tag, every expected tag
has an exactly matching existing tag and vice versa, yet `syncTags`
computes a non-empty delete-set and issues one mutation call, so the
claim's mutual-membership condition does not suffice for zero calls. -/
theorem syncTags_convergence_counterexample :
    (∀ t ∈ cexExpectedTags, ∃ u ∈ cexExistingTags, tagEquals t u = true) ∧
    (∀ u ∈ cexExistingTags, ∃ t ∈ cexExpectedTags, tagEquals u t = true) ∧
    (syncTagsDiff cexExpectedTags cexExistingTags).2 ≠ [] ∧
    syncTagsCalls cexExistingTags cexExpectedTags ≠ [] := by decide

/-- C2 (amended): when the existing and expected tag sets match as
multisets — equal up to permutation, which under duplicate-free tag lists
is exactly mutual membership — `syncTags` computes an empty add-set and an
empty delete-set and issues zero `ChangeTagsForResource` calls. -/
theorem syncTags_convergent (existing expected : List Tag)
    (h : expected.Perm existing) :
    syncTagsDiff expected existing = ([], []) ∧
    syncTagsCalls existing expected = [] := by
  have hd := syncTagsDiff_of_perm expected existing h
  refine ⟨hd, ?_⟩
  simp [syncTagsCalls, hd]

/-- C2 witness: the amended theorem applied to a concrete permuted pair. -/
theorem syncTags_convergent_witness :
    syncTagsDiff [wTagA, wTagB] [wTagB, wTagA] = ([], []) ∧
    syncTagsCalls [wTagB, wTagA] [wTagA, wTagB] = [] :=
  syncTags_convergent [wTagB, wTagA] [wTagA, wTagB] (by decide)

/-! ## C3 -/

theorem tagBatches_length (toAdd : List Tag) (keys : List String)
    (index : Nat) :
    (tagBatches toAdd keys index).length =
      (max toAdd.length keys.length - index + 9) / 10 := by
  rw [tagBatches_eq]
  by_cases hg : (toAdd.length > index || keys.length > index) = true
  · rw [if_pos hg, List.length_cons,
      tagBatches_length toAdd keys (index + 10)]
    simp only [Bool.or_eq_true, decide_eq_true_eq, gt_iff_lt] at hg
    omega
  · rw [if_neg hg]
    simp only [Bool.or_eq_true, decide_eq_true_eq, gt_iff_lt, not_or,
      not_lt] at hg
    simp only [List.length_nil]
    omega
termination_by max toAdd.length keys.length - index
decreasing_by
  simp only [Bool.or_eq_true, decide_eq_true_eq, gt_iff_lt] at hg
  omega

theorem tagBatches_get? (toAdd : List Tag) (keys : List String) :
    ∀ (i index : Nat) (c : ChangeTagsCall),
      (tagBatches toAdd keys index).get? i = some c →
      c = { addTags := (toAdd.drop (index + 10 * i)).take 10,
            removeTagKeys := (keys.drop (index + 10 * i)).take 10 } := by
  intro i
  induction i with
  | zero =>
    intro index c h
    rw [tagBatches_eq] at h
    by_cases hg : (toAdd.length > index || keys.length > index) = true
    · rw [if_pos hg] at h
      simp only [List.get?] at h
      cases h
      simp
    · rw [if_neg hg] at h
      simp [List.get?] at h
  | succ n ih =>
    intro index c h
    rw [tagBatches_eq] at h
    by_cases hg : (toAdd.length > index || keys.length > index) = true
    · rw [if_pos hg] at h
      simp only [List.get?] at h
      have := ih (index + 10) c h
      rw [this]
      have harith : index + 10 + 10 * n = index + 10 * (n + 1) := by ring
      rw [harith]
    · rw [if_neg hg] at h
      simp [List.get?] at h

/-- C3: every `ChangeTagsForResource` call issued by `syncTags` carries at
most 10 additions and at most 10 key removals; the call at position `i`
holds exactly the stride-10 chunks of the add list and of the delete-key
list starting at the shared index `10 * i`; no call has both chunks empty;
and the number of calls is exactly enough to exhaust both lists. -/
theorem syncTags_batch_limits (existing expected : List Tag) (i : Nat)
    (c : ChangeTagsCall)
    (h : (syncTagsCalls existing expected).get? i = some c) :
    c.addTags = ((syncTagsDiff expected existing).1.drop (10 * i)).take 10 ∧
    c.removeTagKeys =
      (((syncTagsDiff expected existing).2.map Tag.key).drop (10 * i)).take 10 ∧
    c.addTags.length ≤ 10 ∧
    c.removeTagKeys.length ≤ 10 ∧
    ¬(c.addTags = [] ∧ c.removeTagKeys = []) ∧
    (syncTagsCalls existing expected).length =
      (max (syncTagsDiff expected existing).1.length
        (syncTagsDiff expected existing).2.length + 9) / 10 := by
  unfold syncTagsCalls at h ⊢
  by_cases he : ((syncTagsDiff expected existing).2.isEmpty &&
      (syncTagsDiff expected existing).1.isEmpty) = true
  · rw [if_pos he] at h
    simp [List.get?] at h
  · rw [if_neg he] at h ⊢
    have hc := tagBatches_get? (syncTagsDiff expected existing).1
      ((syncTagsDiff expected existing).2.map Tag.key) i 0 c h
    have hlen := tagBatches_length (syncTagsDiff expected existing).1
      ((syncTagsDiff expected existing).2.map Tag.key) 0
    have hi : i < (tagBatches (syncTagsDiff expected existing).1
        ((syncTagsDiff expected existing).2.map Tag.key) 0).length :=
      List.get?_eq_some.mp h |>.1
    rw [hlen] at hi
    have hpos : 10 * i <
        max (syncTagsDiff expected existing).1.length
          ((syncTagsDiff expected existing).2.map Tag.key).length := by
      omega
    subst hc
    refine ⟨by simp, by simp, ?_, ?_, ?_, ?_⟩
    · simp
    · simp
    · intro hboth
      obtain ⟨h1, h2⟩ := hboth
      have l1 := congrArg List.length h1
      have l2 := congrArg List.length h2
      simp only [List.length_take, List.length_drop, List.length_nil] at l1 l2
      omega
    · rw [hlen]
      simp only [List.length_map]
      omega

/-- C3 witness: twelve keys to delete and nothing to add produce two
calls; the second carries the two remaining key removals. -/
theorem syncTags_batch_limits_witness :
    (syncTagsCalls wTwelveTags []).get? 1 =
      some { addTags := [], removeTagKeys := ["k11", "k12"] } ∧
    ({ addTags := [], removeTagKeys := ["k11", "k12"] } :
      ChangeTagsCall).removeTagKeys.length ≤ 10 ∧
    ¬(({ addTags := [], removeTagKeys := ["k11", "k12"] } :
        ChangeTagsCall).addTags = [] ∧
      ({ addTags := [], removeTagKeys := ["k11", "k12"] } :
        ChangeTagsCall).removeTagKeys = []) ∧
    (syncTagsCalls wTwelveTags []).length = 2 := by
  have h : (syncTagsCalls wTwelveTags []).get? 1 =
      some { addTags := [], removeTagKeys := ["k11", "k12"] } := by decide
  have hc := syncTags_batch_limits wTwelveTags [] 1
    { addTags := [], removeTagKeys := ["k11", "k12"] } h
  refine ⟨h, hc.2.2.2.1, hc.2.2.2.2.1, ?_⟩
  rw [hc.2.2.2.2.2]
  decide

/-! ## C4 -/

theorem deleteRecordSets_not_protected (zone : String)
    (outcome : List RecordSet → Option ProviderError) :
    ∀ (responses : List (Except ProviderError ListRecordsPage))
      (cursor : RecordCursor) (b : List RecordSet) (r : RecordSet),
      PCall.changeRecords b ∈
        (DeleteAWSRecordSets zone outcome responses cursor).2 →
      r ∈ b → protectedRecord zone r = false := by
  intro responses
  induction responses with
  | nil =>
    intro cursor b r hb _
    simp [DeleteAWSRecordSets] at hb
  | cons resp rest ih =>
    intro cursor b r hb hr
    cases resp with
    | error e => simp [DeleteAWSRecordSets] at hb
    | ok page =>
      simp only [DeleteAWSRecordSets] at hb
      by_cases hemp : (page.resourceRecordSets.filter
          (fun x => !protectedRecord zone x)).isEmpty = true
      · by_cases htr : (page.isTruncated == some true) = true
        · simp [hemp, htr] at hb
          exact ih _ b r hb hr
        · simp [hemp, htr] at hb
      · cases houtcome : outcome (page.resourceRecordSets.filter
            (fun x => !protectedRecord zone x)) with
        | some e =>
          simp [hemp, houtcome] at hb
          subst hb
          have := List.of_mem_filter hr
          simpa using this
        | none =>
          by_cases htr : (page.isTruncated == some true) = true
          · simp [hemp, houtcome, htr] at hb
            rcases hb with hb | hb
            · subst hb
              have := List.of_mem_filter hr
              simpa using this
            · exact ih _ b r hb hr
          · simp [hemp, houtcome, htr] at hb
            subst hb
            have := List.of_mem_filter hr
            simpa using this

theorem deleteRecordSets_trace (zone : String)
    (outcome : List RecordSet → Option ProviderError)
    (hout : ∀ c, outcome c = none) :
    ∀ (pages : List ListRecordsPage) (cursor : RecordCursor),
      (DeleteAWSRecordSets zone outcome (pages.map Except.ok) cursor).2 =
        sweepSpecTrace zone pages cursor := by
  intro pages
  induction pages with
  | nil => intro cursor; rfl
  | cons page rest ih =>
    intro cursor
    simp only [List.map_cons, DeleteAWSRecordSets, sweepSpecTrace, hout]
    by_cases hemp : (page.resourceRecordSets.filter
        (fun x => !protectedRecord zone x)).isEmpty
    · simp only [hemp, if_pos rfl]
      by_cases htr : page.isTruncated == some true
      · simp [htr, ih]
      · simp only [Bool.not_eq_true] at htr
        simp [htr]
    · simp only [hemp, Bool.false_eq_true, if_false]
      by_cases htr : page.isTruncated == some true
      · simp [htr, ih]
      · simp only [Bool.not_eq_true] at htr
        simp [htr]

theorem deleteRecordSets_ok (zone : String)
    (outcome : List RecordSet → Option ProviderError)
    (hout : ∀ c, outcome c = none) :
    ∀ (pages : List ListRecordsPage) (cursor : RecordCursor),
      (∃ p ∈ pages, p.isTruncated ≠ some true) →
      (DeleteAWSRecordSets zone outcome (pages.map Except.ok) cursor).1 =
        .ok () := by
  intro pages
  induction pages with
  | nil =>
    intro cursor h
    simp at h
  | cons page rest ih =>
    intro cursor h
    simp only [List.map_cons, DeleteAWSRecordSets, hout]
    by_cases hemp : (page.resourceRecordSets.filter
        (fun x => !protectedRecord zone x)).isEmpty
    · simp only [hemp, if_pos rfl]
      by_cases htr : page.isTruncated == some true
      · have hrest : ∃ p ∈ rest, p.isTruncated ≠ some true := by
          rcases h with ⟨p, hp, hne⟩
          rcases List.mem_cons.mp hp with rfl | hp
          · exact absurd (by simpa using htr) hne
          · exact ⟨p, hp, hne⟩
        simp [htr, ih _ hrest]
      · simp only [Bool.not_eq_true] at htr
        simp [htr]
    · simp only [hemp, Bool.false_eq_true, if_false]
      by_cases htr : page.isTruncated == some true
      · have hrest : ∃ p ∈ rest, p.isTruncated ≠ some true := by
          rcases h with ⟨p, hp, hne⟩
          rcases List.mem_cons.mp hp with rfl | hp
          · exact absurd (by simpa using htr) hne
          · exact ⟨p, hp, hne⟩
        simp [htr, ih _ hrest]
      · simp only [Bool.not_eq_true] at htr
        simp [htr]

/-- C4: the record sweep never places a record whose name is the dotted
apex domain and whose type is NS or SOA into any deletion batch; when the
provider's change calls succeed, the issued trace is exactly the per-page
sweep — one listing per page with the cursor fields advanced each round,
one deletion change per page holding exactly that page's non-protected
records whenever any exist, recursing exactly while the page reports
truncation; and the sweep terminates successfully as soon as a page
reports no further pages. -/
theorem delete_sweep_protection_and_pagination :
    (∀ (zone : String) (outcome : List RecordSet → Option ProviderError)
       (responses : List (Except ProviderError ListRecordsPage))
       (cursor : RecordCursor) (b : List RecordSet) (r : RecordSet),
       PCall.changeRecords b ∈
         (DeleteAWSRecordSets zone outcome responses cursor).2 →
       r ∈ b →
       ¬(r.name = Dotted zone ∧ (r.rtype = "NS" ∨ r.rtype = "SOA"))) ∧
    (∀ (zone : String) (outcome : List RecordSet → Option ProviderError)
       (pages : List ListRecordsPage) (cursor : RecordCursor),
       (∀ c, outcome c = none) →
       (DeleteAWSRecordSets zone outcome (pages.map Except.ok) cursor).2 =
         sweepSpecTrace zone pages cursor) ∧
    (∀ (zone : String) (outcome : List RecordSet → Option ProviderError)
       (pages : List ListRecordsPage) (cursor : RecordCursor),
       (∀ c, outcome c = none) →
       (∃ p ∈ pages, p.isTruncated ≠ some true) →
       (DeleteAWSRecordSets zone outcome (pages.map Except.ok) cursor).1 =
         .ok ()) := by
  refine ⟨?_, ?_, ?_⟩
  · intro zone outcome responses cursor b r hb hr hand
    have hfalse := deleteRecordSets_not_protected zone outcome responses
      cursor b r hb hr
    have htrue : protectedRecord zone r = true := by
      rcases hand with ⟨h1, h2⟩
      rcases h2 with h2 | h2 <;> simp [protectedRecord, h1, h2]
    rw [htrue] at hfalse
    exact absurd hfalse (by simp)
  · intro zone outcome pages cursor hout
    exact deleteRecordSets_trace zone outcome hout pages cursor
  · intro zone outcome pages cursor hout hex
    exact deleteRecordSets_ok zone outcome hout pages cursor hex

/-- C4 witness: the concrete two-page sweep — the ordinary A record may be
deleted, the trace is the per-page sweep trace, and the sweep ends in
success. -/
theorem delete_sweep_witness :
    ¬((⟨"a.z.example.com.", "A", ["192.0.2.1"]⟩ : RecordSet).name =
        Dotted "z.example.com" ∧
      ((⟨"a.z.example.com.", "A", ["192.0.2.1"]⟩ : RecordSet).rtype = "NS" ∨
       (⟨"a.z.example.com.", "A", ["192.0.2.1"]⟩ : RecordSet).rtype =
         "SOA")) ∧
    (DeleteAWSRecordSets "z.example.com" (fun _ => none)
        ([wSweepPage1, wSweepPage2].map Except.ok) emptyRecordCursor).2 =
      sweepSpecTrace "z.example.com" [wSweepPage1, wSweepPage2]
        emptyRecordCursor ∧
    (DeleteAWSRecordSets "z.example.com" (fun _ => none)
        ([wSweepPage1, wSweepPage2].map Except.ok) emptyRecordCursor).1 =
      .ok () := by
  refine ⟨?_, ?_, ?_⟩
  · exact delete_sweep_protection_and_pagination.1 "z.example.com"
      (fun _ => none) ([wSweepPage1, wSweepPage2].map Except.ok)
      emptyRecordCursor
      [⟨"a.z.example.com.", "A", ["192.0.2.1"]⟩]
      ⟨"a.z.example.com.", "A", ["192.0.2.1"]⟩ (by decide) (by decide)
  · exact delete_sweep_protection_and_pagination.2.1 "z.example.com"
      (fun _ => none) [wSweepPage1, wSweepPage2] emptyRecordCursor
      (fun _ => rfl)
  · exact delete_sweep_protection_and_pagination.2.2 "z.example.com"
      (fun _ => none) [wSweepPage1, wSweepPage2] emptyRecordCursor
      (fun _ => rfl) ⟨wSweepPage2, by decide, by decide⟩

/-! ## C5 -/

/-- C5 counterexample: with an empty zone sweep and the provider failing
the final deletion with its zone-not-empty error, `Delete` returns that
error to the caller — the pass fails exactly as it would for any other
deletion error (only the log level differs), contradicting the claim that
the not-empty outcome is non-fatal for the pass. -/
theorem delete_notEmpty_counterexample :
    isHostedZoneNotEmpty wNotEmptyErr = true ∧
    (Delete wDNSZone wStatePopulated wEmptySweepResponses (fun _ => none)
        (some wNotEmptyErr)).1 = .error wNotEmptyErr ∧
    (Delete wDNSZone wStatePopulated wEmptySweepResponses (fun _ => none)
        (some wNotEmptyErr)).2.2.1 = some LogLevel.info := by decide

/-- C5 (amended): when the final zone-deletion call fails, `Delete` logs
the failure at info level exactly when the error is the provider's
zone-not-empty error (the expected, non-escalated log treatment) and at
error level otherwise — but in every failure case the error, not-empty
included, is returned to the caller as the pass failure. -/
theorem delete_notEmpty_logged_info_but_returned (dz : DNSZoneSpec)
    (st : ActuatorState) (hz : HostedZone)
    (responses : List (Except ProviderError ListRecordsPage))
    (outcome : List RecordSet → Option ProviderError) (e : ProviderError)
    (hst : st.hostedZone = some hz)
    (hsweep : (DeleteAWSRecordSets dz.zone outcome responses
      emptyRecordCursor).1 = .ok ()) :
    (Delete dz st responses outcome (some e)).1 = .error e ∧
    (Delete dz st responses outcome (some e)).2.2.1 =
      some (if isHostedZoneNotEmpty e then LogLevel.info
        else LogLevel.error) := by
  simp only [Delete, hst, hsweep]
  exact ⟨trivial, trivial⟩

/-- C5 witness: a deletion failure that is not the not-empty error is
returned and logged at error level. -/
theorem delete_notEmpty_logged_info_but_returned_witness :
    (Delete wDNSZone wStatePopulated wEmptySweepResponses (fun _ => none)
        (some (ProviderError.plain "boom"))).1 =
      .error (ProviderError.plain "boom") ∧
    (Delete wDNSZone wStatePopulated wEmptySweepResponses (fun _ => none)
        (some (ProviderError.plain "boom"))).2.2.1 =
      some (if isHostedZoneNotEmpty (ProviderError.plain "boom") then
        LogLevel.info else LogLevel.error) :=
  delete_notEmpty_logged_info_but_returned wDNSZone wStatePopulated
    wHostedZone wEmptySweepResponses (fun _ => none)
    (ProviderError.plain "boom") (by decide) (by decide)

/-! ## C7 -/

/-- C7: on a resolved zone, `GetNameServers` succeeds exactly when the
provider query returns one single record, of NS type, named the domain
plus its trailing dot — and then the returned name-server values are
exactly the record's values in the provider's order; every deviation is an
error, never an empty or partial success. -/
theorem getNameServers_validates (dz : DNSZoneSpec) (st : ActuatorState)
    (hz : HostedZone)
    (listResult : Except ProviderError ListRecordsPage)
    (hsome : st.hostedZone = some hz) (l : List String) :
    (GetNameServers dz st listResult).1 = .ok l ↔
      ∃ page r, listResult = .ok page ∧ page.resourceRecordSets = [r] ∧
        r.rtype = "NS" ∧ r.name = dz.zone ++ "." ∧ l = r.values := by
  simp only [GetNameServers, hsome]
  cases listResult with
  | error e => simp
  | ok resp =>
    cases hrs : resp.resourceRecordSets with
    | nil => simp [hrs]
    | cons r0 tail =>
      cases tail with
      | nil =>
        by_cases h1 : r0.rtype = "NS"
        · by_cases h2 : r0.name = dz.zone ++ "."
          · simp [hrs, h1, h2, eq_comm]
          · simp [hrs, h1, h2]
        · simp [hrs, h1]
      | cons r1 tail2 => simp [hrs]

/-- C7 witness: the expected singleton NS record yields exactly its two
name-server values, in order. -/
theorem getNameServers_validates_witness :
    (GetNameServers wDNSZone wStatePopulated (.ok wNSPage)).1 =
      .ok ["ns1.example.net", "ns2.example.net"] :=
  (getNameServers_validates wDNSZone wStatePopulated wHostedZone
      (.ok wNSPage) (by decide)
      ["ns1.example.net", "ns2.example.net"]).mpr
    ⟨wNSPage, ⟨"z.example.com.", "NS", ["ns1.example.net", "ns2.example.net"]⟩,
     rfl, rfl, rfl, rfl, rfl⟩

/-! ## C10 -/

/-- C10: with no cached hosted zone, `UpdateMetadata`, `Delete` and
`GetNameServers` each return an unpopulated-zone error immediately, issue
no provider call, and leave the actuator state (and thus the zone status)
unchanged. -/
theorem unpopulated_zone_operations_fail (dz : DNSZoneSpec)
    (st : ActuatorState)
    (outcome : ChangeTagsCall → Option ProviderError)
    (responses : List (Except ProviderError ListRecordsPage))
    (rchangeOutcome : List RecordSet → Option ProviderError)
    (deleteZoneResult : Option ProviderError)
    (listResult : Except ProviderError ListRecordsPage)
    (h : st.hostedZone = none) :
    UpdateMetadata dz st outcome =
      (.error (.plain "hostedZone is unpopulated"), st, []) ∧
    Delete dz st responses rchangeOutcome deleteZoneResult =
      (.error (.plain "hostedZone is unpopulated"), st, none, []) ∧
    GetNameServers dz st listResult =
      (.error (.plain "hostedZone is unpopulated"), st, []) := by
  simp [UpdateMetadata, Delete, GetNameServers, h]

/-- C10 witness: the three operations fail on the concrete unpopulated
state with no provider calls. -/
theorem unpopulated_zone_operations_fail_witness :
    UpdateMetadata wDNSZone wStateUnpopulated (fun _ => none) =
      (.error (.plain "hostedZone is unpopulated"), wStateUnpopulated,
        []) ∧
    Delete wDNSZone wStateUnpopulated wEmptySweepResponses (fun _ => none)
        none =
      (.error (.plain "hostedZone is unpopulated"), wStateUnpopulated,
        none, []) ∧
    GetNameServers wDNSZone wStateUnpopulated (.ok wNSPage) =
      (.error (.plain "hostedZone is unpopulated"), wStateUnpopulated,
        []) :=
  unpopulated_zone_operations_fail wDNSZone wStateUnpopulated
    (fun _ => none) wEmptySweepResponses (fun _ => none) none
    (.ok wNSPage) (by decide)

/-! ## C6 -/

theorem findCondition_cons (t : String) (x : DNSZoneCondition)
    (xs : List DNSZoneCondition) :
    findCondition t (x :: xs) =
      if (x.ctype == t) = true then some x else findCondition t xs := by
  by_cases hx : (x.ctype == t) = true <;>
    simp [findCondition, List.find?_cons, hx]

theorem findCondition_setConditionList_self (t : String)
    (c : DNSZoneCondition) (hc : c.ctype = t) :
    ∀ l, findCondition t (setConditionList t c l) = some c := by
  intro l
  induction l with
  | nil => simp [setConditionList, findCondition_cons, hc]
  | cons x xs ih =>
    by_cases hx : (x.ctype == t) = true
    · simp [setConditionList, hx, findCondition_cons, hc]
    · simp [setConditionList, hx, findCondition_cons, ih]

theorem setConditionList_of_findCondition (t : String)
    (c : DNSZoneCondition) :
    ∀ l, findCondition t l = some c → setConditionList t c l = l := by
  intro l
  induction l with
  | nil => intro h; simp [findCondition] at h
  | cons x xs ih =>
    intro h
    rw [findCondition_cons] at h
    by_cases hx : (x.ctype == t) = true
    · rw [if_pos hx] at h
      injection h with hxc
      subst hxc
      simp [setConditionList, hx]
    · rw [if_neg hx] at h
      simp [setConditionList, hx, ih h]

theorem findCondition_setConditionList_other (t t2 : String)
    (c : DNSZoneCondition) (hc : c.ctype = t) (hne : t2 ≠ t) :
    ∀ l, findCondition t2 (setConditionList t c l) = findCondition t2 l := by
  intro l
  have hcne : (c.ctype == t2) = false := by
    rw [hc]
    simp
    exact fun hcontra => hne hcontra.symm
  induction l with
  | nil => simp [setConditionList, findCondition_cons, hcne, findCondition]
  | cons x xs ih =>
    by_cases hx : (x.ctype == t) = true
    · have hxne : (x.ctype == t2) = false := by
        have hxt : x.ctype = t := by simpa using hx
        rw [hxt]
        simp
        exact fun hcontra => hne hcontra.symm
      simp only [setConditionList, hx, if_true]
      rw [findCondition_cons, findCondition_cons, hcne, hxne]
      simp
    · simp only [setConditionList, hx, Bool.false_eq_true, if_false]
      rw [findCondition_cons, findCondition_cons]
      by_cases hx2 : (x.ctype == t2) = true
      · rw [if_pos hx2, if_pos hx2]
      · rw [if_neg hx2, if_neg hx2]
        exact ih

theorem findCondition_setCheck (conds : List DNSZoneCondition)
    (t s r m : String) (chk : UpdateConditionCheck) :
    findCondition t
      (setDNSZoneConditionWithChangeCheck conds t s r m chk).1 =
      some ⟨t, s, r, m⟩ := by
  unfold setDNSZoneConditionWithChangeCheck
  cases hfind : findCondition t conds with
  | none => exact findCondition_setConditionList_self t _ rfl conds
  | some old =>
    have hold : old.ctype = t := by
      have := List.find?_some hfind
      simpa using this
    cases chk with
    | alwaysOverwrite =>
      exact findCondition_setConditionList_self t _ rfl conds
    | overwriteIfReasonOrMessageDiffers =>
      by_cases hw : (old.status != s || old.reason != r ||
          old.message != m) = true
      · simp only [hw, if_true]
        exact findCondition_setConditionList_self t _ rfl conds
      · simp only [hw, Bool.false_eq_true, if_false]
        have : old = ⟨t, s, r, m⟩ := by
          simp only [Bool.or_eq_true, bne_iff_ne, ne_eq, not_or,
            not_not] at hw
          cases old
          simp only [DNSZoneCondition.mk.injEq]
          exact ⟨hold, hw.1.1, hw.1.2, hw.2⟩
        rw [hfind, this]

theorem findCondition_setCheck_other (conds : List DNSZoneCondition)
    (t t2 s r m : String) (chk : UpdateConditionCheck) (hne : t2 ≠ t) :
    findCondition t2
      (setDNSZoneConditionWithChangeCheck conds t s r m chk).1 =
      findCondition t2 conds := by
  unfold setDNSZoneConditionWithChangeCheck
  cases hfind : findCondition t conds with
  | none => exact findCondition_setConditionList_other t t2 _ rfl hne conds
  | some old =>
    cases chk with
    | alwaysOverwrite =>
      exact findCondition_setConditionList_other t t2 _ rfl hne conds
    | overwriteIfReasonOrMessageDiffers =>
      by_cases hw : (old.status != s || old.reason != r ||
          old.message != m) = true
      · simp only [hw, if_true]
        exact findCondition_setConditionList_other t t2 _ rfl hne conds
      · simp only [hw, Bool.false_eq_true, if_false]

theorem setCheck_changed_iff (conds : List DNSZoneCondition)
    (t s r m : String) (chk : UpdateConditionCheck) :
    ((setDNSZoneConditionWithChangeCheck conds t s r m chk).2 = true ↔
      findCondition t
          (setDNSZoneConditionWithChangeCheck conds t s r m chk).1 ≠
        findCondition t conds) := by
  have hself := findCondition_setCheck conds t s r m chk
  have hq2 : (setDNSZoneConditionWithChangeCheck conds t s r m chk).2 =
      ((setDNSZoneConditionWithChangeCheck conds t s r m chk).1 !=
        conds) := rfl
  rw [hq2, bne_iff_ne]
  constructor
  · intro hne heq
    apply hne
    have hfind : findCondition t conds = some ⟨t, s, r, m⟩ := by
      rw [← heq, hself]
    have hlist := setConditionList_of_findCondition t _ conds hfind
    show (setDNSZoneConditionWithChangeCheck conds t s r m chk).1 = conds
    unfold setDNSZoneConditionWithChangeCheck
    simp only [hfind]
    cases chk <;> simp [hlist]
  · intro hfne heq
    apply hfne
    rw [heq]

theorem setPair_findIC (conds : List DNSZoneCondition)
    (s1 r1 m1 : String) (chk1 : UpdateConditionCheck)
    (s2 r2 m2 : String) (chk2 : UpdateConditionCheck) :
    findCondition insufficientCredentialsCondition
        (setDNSZoneConditionWithChangeCheck
          (setDNSZoneConditionWithChangeCheck conds
            insufficientCredentialsCondition s1 r1 m1 chk1).1
          authenticationFailureCondition s2 r2 m2 chk2).1 =
      some ⟨insufficientCredentialsCondition, s1, r1, m1⟩ := by
  rw [findCondition_setCheck_other _ authenticationFailureCondition
    insufficientCredentialsCondition s2 r2 m2 chk2 (by decide),
    findCondition_setCheck]

theorem setPair_findAF (conds : List DNSZoneCondition)
    (s1 r1 m1 : String) (chk1 : UpdateConditionCheck)
    (s2 r2 m2 : String) (chk2 : UpdateConditionCheck) :
    findCondition authenticationFailureCondition
        (setDNSZoneConditionWithChangeCheck
          (setDNSZoneConditionWithChangeCheck conds
            insufficientCredentialsCondition s1 r1 m1 chk1).1
          authenticationFailureCondition s2 r2 m2 chk2).1 =
      some ⟨authenticationFailureCondition, s2, r2, m2⟩ :=
  findCondition_setCheck _ authenticationFailureCondition s2 r2 m2 chk2

theorem setPair_changed_iff (conds : List DNSZoneCondition)
    (s1 r1 m1 : String) (chk1 : UpdateConditionCheck)
    (s2 r2 m2 : String) (chk2 : UpdateConditionCheck) :
    (((setDNSZoneConditionWithChangeCheck conds
        insufficientCredentialsCondition s1 r1 m1 chk1).2 ||
      (setDNSZoneConditionWithChangeCheck
        (setDNSZoneConditionWithChangeCheck conds
          insufficientCredentialsCondition s1 r1 m1 chk1).1
        authenticationFailureCondition s2 r2 m2 chk2).2) = true ↔
      findCondition insufficientCredentialsCondition
          (setDNSZoneConditionWithChangeCheck
            (setDNSZoneConditionWithChangeCheck conds
              insufficientCredentialsCondition s1 r1 m1 chk1).1
            authenticationFailureCondition s2 r2 m2 chk2).1 ≠
        findCondition insufficientCredentialsCondition conds ∨
      findCondition authenticationFailureCondition
          (setDNSZoneConditionWithChangeCheck
            (setDNSZoneConditionWithChangeCheck conds
              insufficientCredentialsCondition s1 r1 m1 chk1).1
            authenticationFailureCondition s2 r2 m2 chk2).1 ≠
        findCondition authenticationFailureCondition conds) := by
  rw [Bool.or_eq_true,
    setCheck_changed_iff conds insufficientCredentialsCondition
      s1 r1 m1 chk1,
    setCheck_changed_iff _ authenticationFailureCondition s2 r2 m2 chk2,
    findCondition_setCheck_other _ authenticationFailureCondition
      insufficientCredentialsCondition s2 r2 m2 chk2 (by decide),
    findCondition_setCheck_other conds insufficientCredentialsCondition
      authenticationFailureCondition s1 r1 m1 chk1 (by decide)]

/-- C6: `SetConditionsForError` clears both health conditions on a
non-structured error; on a structured error with an access-denied code it
sets insufficient-credentials true with the fixed redacted message (the
same stored message for every raw provider message `m`), and any other
code clears insufficient-credentials; and it returns true exactly when the
stored value of one of the two conditions changed. -/
theorem setConditionsForError_spec (conds : List DNSZoneCondition)
    (err : ProviderError) :
    (∀ m, err = .plain m →
      findCondition insufficientCredentialsCondition
          (SetConditionsForError conds err).1 =
        some ⟨insufficientCredentialsCondition, "False",
          accessGrantedReason, "credentials are valid"⟩ ∧
      findCondition authenticationFailureCondition
          (SetConditionsForError conds err).1 =
        some ⟨authenticationFailureCondition, "False",
          authenticationSucceededReason, "credentials authenticated"⟩) ∧
    (∀ code m, err = .aws code m →
      (code = "AccessDeniedException" ∨ code = "AccessDenied") →
      findCondition insufficientCredentialsCondition
          (SetConditionsForError conds err).1 =
        some ⟨insufficientCredentialsCondition, "True",
          accessDeniedReason, accessDeniedFixedMessage⟩) ∧
    (∀ code m, err = .aws code m →
      ¬(code = "AccessDeniedException" ∨ code = "AccessDenied") →
      findCondition insufficientCredentialsCondition
          (SetConditionsForError conds err).1 =
        some ⟨insufficientCredentialsCondition, "False",
          accessGrantedReason, "credentials are valid"⟩) ∧
    ((SetConditionsForError conds err).2 = true ↔
      findCondition insufficientCredentialsCondition
          (SetConditionsForError conds err).1 ≠
        findCondition insufficientCredentialsCondition conds ∨
      findCondition authenticationFailureCondition
          (SetConditionsForError conds err).1 ≠
        findCondition authenticationFailureCondition conds) := by
  cases err with
  | plain msg =>
    refine ⟨?_, ?_, ?_, ?_⟩
    · intro m _
      simp only [SetConditionsForError,
        setInsufficientCredentialsConditionToFalse,
        setAuthenticationFailureConditionToFalse]
      exact ⟨setPair_findIC conds _ _ _ _ _ _ _ _,
        setPair_findAF conds _ _ _ _ _ _ _ _⟩
    · intro code m heq
      exact absurd heq (by simp)
    · intro code m heq
      exact absurd heq (by simp)
    · simp only [SetConditionsForError,
        setInsufficientCredentialsConditionToFalse,
        setAuthenticationFailureConditionToFalse]
      exact setPair_changed_iff conds _ _ _ _ _ _ _ _
  | aws code msg =>
    by_cases hacc : (code == "AccessDeniedException" ||
        code == "AccessDenied") = true
    · by_cases hauth : (code == "InvalidSignatureException" ||
          code == "UnrecognizedClientException") = true
      · refine ⟨?_, ?_, ?_, ?_⟩
        · intro m heq
          exact absurd heq (by simp)
        · intro c m heq _
          cases heq
          simp only [SetConditionsForError, hacc, hauth, if_true,
            setInsufficientCredentialsConditionToTrue,
            setAuthenticationFailureConditionToTrue]
          exact setPair_findIC conds _ _ _ _ _ _ _ _
        · intro c m heq hnot
          cases heq
          simp only [Bool.or_eq_true, beq_iff_eq] at hacc
          exact absurd hacc hnot
        · simp only [SetConditionsForError, hacc, hauth, if_true,
            setInsufficientCredentialsConditionToTrue,
            setAuthenticationFailureConditionToTrue]
          exact setPair_changed_iff conds _ _ _ _ _ _ _ _
      · refine ⟨?_, ?_, ?_, ?_⟩
        · intro m heq
          exact absurd heq (by simp)
        · intro c m heq _
          cases heq
          simp only [SetConditionsForError, hacc, hauth, if_true,
            Bool.false_eq_true, if_false,
            setInsufficientCredentialsConditionToTrue,
            setAuthenticationFailureConditionToFalse]
          exact setPair_findIC conds _ _ _ _ _ _ _ _
        · intro c m heq hnot
          cases heq
          simp only [Bool.or_eq_true, beq_iff_eq] at hacc
          exact absurd hacc hnot
        · simp only [SetConditionsForError, hacc, hauth, if_true,
            Bool.false_eq_true, if_false,
            setInsufficientCredentialsConditionToTrue,
            setAuthenticationFailureConditionToFalse]
          exact setPair_changed_iff conds _ _ _ _ _ _ _ _
    · by_cases hauth : (code == "InvalidSignatureException" ||
          code == "UnrecognizedClientException") = true
      · refine ⟨?_, ?_, ?_, ?_⟩
        · intro m heq
          exact absurd heq (by simp)
        · intro c m heq hin
          cases heq
          simp only [Bool.or_eq_true, beq_iff_eq] at hacc
          exact absurd hin hacc
        · intro c m heq _
          cases heq
          simp only [SetConditionsForError, hacc, hauth, if_true,
            Bool.false_eq_true, if_false,
            setInsufficientCredentialsConditionToFalse,
            setAuthenticationFailureConditionToTrue]
          exact setPair_findIC conds _ _ _ _ _ _ _ _
        · simp only [SetConditionsForError, hacc, hauth, if_true,
            Bool.false_eq_true, if_false,
            setInsufficientCredentialsConditionToFalse,
            setAuthenticationFailureConditionToTrue]
          exact setPair_changed_iff conds _ _ _ _ _ _ _ _
      · refine ⟨?_, ?_, ?_, ?_⟩
        · intro m heq
          exact absurd heq (by simp)
        · intro c m heq hin
          cases heq
          simp only [Bool.or_eq_true, beq_iff_eq] at hacc
          exact absurd hin hacc
        · intro c m heq _
          cases heq
          simp only [SetConditionsForError, hacc, hauth,
            Bool.false_eq_true, if_false,
            setInsufficientCredentialsConditionToFalse,
            setAuthenticationFailureConditionToFalse]
          exact setPair_findIC conds _ _ _ _ _ _ _ _
        · simp only [SetConditionsForError, hacc, hauth,
            Bool.false_eq_true, if_false,
            setInsufficientCredentialsConditionToFalse,
            setAuthenticationFailureConditionToFalse]
          exact setPair_changed_iff conds _ _ _ _ _ _ _ _

/-- C6 witness: an access-denied error on empty conditions stores the
fixed redacted message and reports a change; the raw provider message is
not what is stored. -/
theorem setConditionsForError_spec_witness :
    findCondition insufficientCredentialsCondition
        (SetConditionsForError []
          (.aws "AccessDenied" "user arn is not authorized")).1 =
      some ⟨insufficientCredentialsCondition, "True", accessDeniedReason,
        accessDeniedFixedMessage⟩ ∧
    accessDeniedFixedMessage ≠ "user arn is not authorized" :=
  ⟨(setConditionsForError_spec []
      (.aws "AccessDenied" "user arn is not authorized")).2.1
    "AccessDenied" "user arn is not authorized" rfl (Or.inr rfl),
   by decide⟩

/-! ## C8 -/

/-- C8: in the candidate-fetch loop of `Refresh`, a no-such-hosted-zone
error skips the candidate and continues; any other fetch error aborts the
loop — and `Refresh` — with that error; and when no candidate resolves,
`Refresh` returns success with the cached zone (and the status zone ID)
left unset. -/
theorem refresh_error_handling :
    (∀ (getZone : String → Except ProviderError HostedZone)
       (expectedName zid : String) (rest : List String)
       (acc : Option HostedZone) (e : ProviderError),
       getZone zid = .error e → isNoSuchHostedZone e = true →
       refreshLoop getZone expectedName (zid :: rest) acc =
         ((refreshLoop getZone expectedName rest acc).1,
          (refreshLoop getZone expectedName rest acc).2.1,
          PCall.getZone zid ::
            (refreshLoop getZone expectedName rest acc).2.2)) ∧
    (∀ (getZone : String → Except ProviderError HostedZone)
       (expectedName zid : String) (rest : List String)
       (acc : Option HostedZone) (e : ProviderError),
       getZone zid = .error e → isNoSuchHostedZone e = false →
       refreshLoop getZone expectedName (zid :: rest) acc =
         (.error e, acc, [PCall.getZone zid])) ∧
    (∀ (env : RefreshEnv) (dz : DNSZoneSpec) (st : ActuatorState)
       (ids : List String) (e : ProviderError),
       st.statusZoneID = none → env.tagSearch = .ok ids →
       (refreshLoop env.getZone (Dotted dz.zone) ids none).1 = .error e →
       (Refresh env dz st).1 = .error e) ∧
    (∀ (env : RefreshEnv) (dz : DNSZoneSpec) (st : ActuatorState)
       (ids : List String),
       st.statusZoneID = none → st.hostedZone = none →
       env.tagSearch = .ok ids →
       (refreshLoop env.getZone (Dotted dz.zone) ids none).1 = .ok () →
       (refreshLoop env.getZone (Dotted dz.zone) ids none).2.1 = none →
       (Refresh env dz st).1 = .ok () ∧
       (Refresh env dz st).2.1.hostedZone = none ∧
       (Refresh env dz st).2.1.statusZoneID = none) := by
  refine ⟨?_, ?_, ?_, ?_⟩
  · intro getZone expectedName zid rest acc e hz hns
    simp [refreshLoop, hz, hns]
  · intro getZone expectedName zid rest acc e hz hns
    simp [refreshLoop, hz, hns]
  · intro env dz st ids e hst hsearch hloop
    cases ids with
    | nil => simp [refreshLoop] at hloop
    | cons z zs =>
      simp only [Refresh, hst, hsearch, List.isEmpty_cons,
        Bool.false_eq_true, if_false, hloop]
  · intro env dz st ids hst hzone hsearch hloop1 hloop2
    cases ids with
    | nil =>
      refine ⟨?_, ?_, ?_⟩ <;>
        simp [Refresh, hst, hsearch, hzone]
    | cons z zs =>
      refine ⟨?_, ?_, ?_⟩ <;>
        simp [Refresh, hst, hsearch, hloop1, hloop2]

/-- C8 witness: the not-found candidate is skipped, the hard failure
aborts `Refresh` with the same error, and an empty candidate set yields
success with no zone cached. -/
theorem refresh_error_handling_witness :
    refreshLoop wGetZone "z.example.com." ["B"] none =
      (.ok (), none, [PCall.getZone "B"]) ∧
    refreshLoop wGetZone "z.example.com." ["X"] none =
      (.error (.plain "boom"), none, [PCall.getZone "X"]) ∧
    (Refresh wRefreshEnvHardError wDNSZone wStateUnpopulated).1 =
      .error (.plain "boom") ∧
    (Refresh wRefreshEnvEmpty wDNSZone wStateUnpopulated).1 = .ok () ∧
    (Refresh wRefreshEnvEmpty wDNSZone wStateUnpopulated).2.1.hostedZone =
      none := by
  refine ⟨?_, ?_, ?_, ?_, ?_⟩
  · exact (refresh_error_handling.1 wGetZone "z.example.com." "B" [] none
      (.aws "NoSuchHostedZone" "gone") rfl rfl).trans (by decide)
  · exact refresh_error_handling.2.1 wGetZone "z.example.com." "X" [] none
      (.plain "boom") rfl rfl
  · exact refresh_error_handling.2.2.1 wRefreshEnvHardError wDNSZone
      wStateUnpopulated ["X"] (.plain "boom") rfl rfl (by decide)
  · exact (refresh_error_handling.2.2.2 wRefreshEnvEmpty wDNSZone
      wStateUnpopulated [] rfl rfl rfl rfl rfl).1
  · exact (refresh_error_handling.2.2.2 wRefreshEnvEmpty wDNSZone
      wStateUnpopulated [] rfl rfl rfl rfl rfl).2.1

/-! ## C9 -/

theorem refreshLoop_all_resolved
    (getZone : String → Except ProviderError HostedZone)
    (expectedName : String) :
    ∀ (ids : List String) (acc : Option HostedZone),
      (∀ zid ∈ ids, (∃ z, getZone zid = .ok z) ∨
        (∃ e, getZone zid = .error e ∧ isNoSuchHostedZone e = true)) →
      refreshLoop getZone expectedName ids acc =
        (.ok (),
         (matchingZones getZone expectedName ids).foldl
           (fun _ z => some z) acc,
         ids.map PCall.getZone) := by
  intro ids
  induction ids with
  | nil => intro acc _; simp [refreshLoop, matchingZones]
  | cons zid rest ih =>
    intro acc h
    have hrest : ∀ z2 ∈ rest, (∃ z, getZone z2 = .ok z) ∨
        (∃ e, getZone z2 = .error e ∧ isNoSuchHostedZone e = true) :=
      fun z2 hz2 => h z2 (List.mem_cons_of_mem _ hz2)
    rcases h zid (List.mem_cons_self _ _) with ⟨z, hz⟩ | ⟨e, hz, hns⟩
    · by_cases hname : (z.name == expectedName) = true
      · have hbne : (z.name != expectedName) = false := by
          simp only [bne]
          rw [hname]
          rfl
        simp only [refreshLoop, hz, hbne, Bool.false_eq_true, if_false,
          matchingZones, List.filterMap_cons, hname, if_true,
          List.foldl_cons, List.map_cons]
        rw [ih (some z) hrest]
        simp [matchingZones]
      · have hbne : (z.name != expectedName) = true := by
          simp only [bne]
          simp only [Bool.not_eq_true] at hname ⊢
          rw [hname]
          rfl
        simp only [refreshLoop, hz, hbne, if_true, matchingZones,
          List.filterMap_cons, hname, Bool.false_eq_true, if_false,
          List.map_cons]
        rw [ih acc hrest]
        simp [matchingZones]
    · simp only [refreshLoop, hz, hns, if_true, matchingZones,
        List.filterMap_cons, List.map_cons]
      rw [ih acc hrest]
      simp [matchingZones]

theorem foldl_lastMatch (l : List HostedZone) :
    ∀ acc : Option HostedZone,
      l.foldl (fun _ z => some z) acc =
        match l.getLast? with
        | some z => some z
        | none => acc := by
  induction l with
  | nil => intro acc; rfl
  | cons x xs ih =>
    intro acc
    simp only [List.foldl_cons]
    rw [ih (some x)]
    cases xs with
    | nil => simp
    | cons y ys =>
      rw [List.getLast?_cons_cons]
      cases hys : (y :: ys).getLast? with
      | none =>
        rw [List.getLast?_eq_none_iff] at hys
        cases hys
      | some w => rfl

/-- C9: when every collected candidate either resolves or is benignly
missing, the fetch loop of `Refresh` visits every candidate (one fetch
call per collected identifier, even after a match), retains the last
candidate whose name matches the expected dotted domain, and `Refresh`
caches that zone, writes its ID to status and stores its tags. -/
theorem refresh_last_match_wins :
    (∀ (getZone : String → Except ProviderError HostedZone)
       (expectedName : String) (ids : List String)
       (acc : Option HostedZone),
       (∀ zid ∈ ids, (∃ z, getZone zid = .ok z) ∨
         (∃ e, getZone zid = .error e ∧ isNoSuchHostedZone e = true)) →
       refreshLoop getZone expectedName ids acc =
         (.ok (),
          (matchingZones getZone expectedName ids).foldl
            (fun _ z => some z) acc,
          ids.map PCall.getZone)) ∧
    (∀ (getZone : String → Except ProviderError HostedZone)
       (expectedName : String) (ids : List String),
       (∀ zid ∈ ids, (∃ z, getZone zid = .ok z) ∨
         (∃ e, getZone zid = .error e ∧ isNoSuchHostedZone e = true)) →
       (refreshLoop getZone expectedName ids none).2.1 =
         (matchingZones getZone expectedName ids).getLast?) ∧
    (∀ (env : RefreshEnv) (dz : DNSZoneSpec) (st : ActuatorState)
       (ids : List String) (z : HostedZone) (tags : List Tag),
       st.statusZoneID = none → env.tagSearch = .ok ids →
       (∀ zid ∈ ids, (∃ z2, env.getZone zid = .ok z2) ∨
         (∃ e, env.getZone zid = .error e ∧
           isNoSuchHostedZone e = true)) →
       (matchingZones env.getZone (Dotted dz.zone) ids).getLast? =
         some z →
       env.listTags z.id = .ok tags →
       (Refresh env dz st).1 = .ok () ∧
       (Refresh env dz st).2.1.hostedZone = some z ∧
       (Refresh env dz st).2.1.statusZoneID = some z.id ∧
       (Refresh env dz st).2.1.currentHostedZoneTags = tags ∧
       (Refresh env dz st).2.2 =
         PCall.searchByTag hiveDNSZoneAWSTag
             (dz.metaNamespace ++ "/" ++ dz.metaName) ::
           (ids.map PCall.getZone ++ [PCall.listTags z.id])) := by
  refine ⟨refreshLoop_all_resolved, ?_, ?_⟩
  · intro getZone expectedName ids h
    rw [refreshLoop_all_resolved getZone expectedName ids none h]
    dsimp only
    rw [foldl_lastMatch (matchingZones getZone expectedName ids) none]
    cases (matchingZones getZone expectedName ids).getLast? <;> rfl
  · intro env dz st ids z tags hst hsearch h hlast htags
    cases ids with
    | nil => simp [matchingZones] at hlast
    | cons i0 irest =>
      have hloop := refreshLoop_all_resolved env.getZone (Dotted dz.zone)
        (i0 :: irest) none h
      have hfold := foldl_lastMatch
        (matchingZones env.getZone (Dotted dz.zone) (i0 :: irest)) none
      rw [hlast] at hfold
      rw [hfold] at hloop
      refine ⟨?_, ?_, ?_, ?_, ?_⟩ <;>
        simp [Refresh, hst, hsearch, hloop, htags, applyMatch]

/-- C9 witness: with candidates A (match), B (gone), C (match) and D
(other name), every candidate is fetched and the retained zone is C — the
last matching one — whose ID reaches the status and whose tags are
cached. -/
theorem refresh_last_match_wins_witness :
    (Refresh wRefreshEnv wDNSZone wStateUnpopulated).1 = .ok () ∧
    (Refresh wRefreshEnv wDNSZone wStateUnpopulated).2.1.hostedZone =
      some ⟨"C", "z.example.com.", "r2"⟩ ∧
    (Refresh wRefreshEnv wDNSZone
        wStateUnpopulated).2.1.statusZoneID = some "C" ∧
    (Refresh wRefreshEnv wDNSZone
        wStateUnpopulated).2.1.currentHostedZoneTags = [⟨"k", "v"⟩] ∧
    (Refresh wRefreshEnv wDNSZone wStateUnpopulated).2.2 =
      PCall.searchByTag hiveDNSZoneAWSTag "ns/dz" ::
        (["A", "B", "C", "D"].map PCall.getZone ++
          [PCall.listTags "C"]) := by
  have h := refresh_last_match_wins.2.2 wRefreshEnv wDNSZone
    wStateUnpopulated ["A", "B", "C", "D"]
    ⟨"C", "z.example.com.", "r2"⟩ [⟨"k", "v"⟩] rfl rfl
    (by
      intro zid hmem
      simp only [List.mem_cons, List.not_mem_nil, or_false] at hmem
      rcases hmem with rfl | rfl | rfl | rfl
      · exact Or.inl ⟨_, rfl⟩
      · exact Or.inr ⟨_, rfl, rfl⟩
      · exact Or.inl ⟨_, rfl⟩
      · exact Or.inl ⟨_, rfl⟩)
    (by decide) rfl
  exact h

/-! ## C1 -/

theorem searchSpec_append (callerRef domain : String) :
    ∀ (l1 l2 : List HostedZone),
      searchByCallerReferenceSpec callerRef domain (l1 ++ l2) =
        match scanZonesPage callerRef domain l1 with
        | some r => r
        | none => searchByCallerReferenceSpec callerRef domain l2 := by
  intro l1 l2
  induction l1 with
  | nil => rfl
  | cons z zs ih =>
    by_cases h1 : (z.callerReference == callerRef) = true
    · simp [searchByCallerReferenceSpec, scanZonesPage, h1]
    · by_cases h2 : (z.name != domain) = true
      · simp [searchByCallerReferenceSpec, scanZonesPage, h1, h2]
      · simp [searchByCallerReferenceSpec, scanZonesPage, h1, h2, ih]

theorem findZone_refines (domain callerRef : String) :
    ∀ (pages : List ListZonesPage) (nextName : String)
      (nextZoneId : Option String),
      goodPages pages = true →
      (findZoneByCallerReference domain callerRef (pages.map Except.ok)
        nextName nextZoneId).1 =
        searchByCallerReferenceSpec callerRef domain
          ((pages.map ListZonesPage.hostedZones).flatten) := by
  intro pages
  induction pages with
  | nil =>
    intro nextName nextZoneId h
    simp [goodPages] at h
  | cons p rest ih =>
    intro nextName nextZoneId hgood
    simp only [List.map_cons, List.flatten_cons]
    rw [searchSpec_append]
    cases hscan : scanZonesPage callerRef domain p.hostedZones with
    | some r =>
      simp [findZoneByCallerReference, hscan]
    | none =>
      cases rest with
      | nil =>
        have htr : p.isTruncated = false := by
          simpa [goodPages] using hgood
        simp [findZoneByCallerReference, hscan, htr,
          searchByCallerReferenceSpec]
      | cons q qrest =>
        have hgood2 : p.isTruncated = true ∧
            goodPages (q :: qrest) = true := by
          simpa [goodPages, Bool.and_eq_true] using hgood
        simp only [findZoneByCallerReference, hscan, hgood2.1, if_true]
        exact ih _ _ hgood2.2

theorem noCreate_findZone (domain callerRef : String) :
    ∀ (responses : List (Except ProviderError ListZonesPage))
      (nextName : String) (nextZoneId : Option String),
      ∀ x ∈ (findZoneByCallerReference domain callerRef responses
        nextName nextZoneId).2, isCreateCall x = false := by
  intro responses
  induction responses with
  | nil => intro nextName nextZoneId x hx; simp [findZoneByCallerReference] at hx
  | cons resp rest ih =>
    intro nextName nextZoneId x hx
    cases resp with
    | error e =>
      simp [findZoneByCallerReference] at hx
      simp [hx, isCreateCall]
    | ok page =>
      cases hscan : scanZonesPage callerRef domain page.hostedZones with
      | some r =>
        simp [findZoneByCallerReference, hscan] at hx
        simp [hx, isCreateCall]
      | none =>
        by_cases htr : page.isTruncated = true
        · simp [findZoneByCallerReference, hscan, htr] at hx
          rcases hx with rfl | hx
          · simp [isCreateCall]
          · exact ih _ _ x hx
        · simp only [Bool.not_eq_true] at htr
          simp [findZoneByCallerReference, hscan, htr] at hx
          simp [hx, isCreateCall]

theorem noCreate_runChangeCalls
    (outcome : ChangeTagsCall → Option ProviderError) (zoneId : String) :
    ∀ (calls : List ChangeTagsCall),
      ∀ x ∈ (runChangeCalls outcome zoneId calls).2,
        isCreateCall x = false := by
  intro calls
  induction calls with
  | nil => intro x hx; simp [runChangeCalls] at hx
  | cons c cs ih =>
    intro x hx
    cases hout : outcome c with
    | some e =>
      simp [runChangeCalls, hout] at hx
      simp [hx, isCreateCall]
    | none =>
      simp [runChangeCalls, hout] at hx
      rcases hx with rfl | hx
      · simp [isCreateCall]
      · exact ih x hx

theorem countCreateCalls_cons_of_rest (c : PCall) (tr : List PCall)
    (hc : isCreateCall c = true) (h : ∀ x ∈ tr, isCreateCall x = false) :
    countCreateCalls (c :: tr) = 1 := by
  unfold countCreateCalls
  rw [List.filter_cons, if_pos hc, List.length_cons,
    List.filter_eq_nil_iff.mpr (by intro x hx; simp [h x hx])]
  rfl

/-- C1: when the create call fails because the zone already exists,
`Create` issues exactly one zone-creation call (no second create); its
subsequent behaviour is the by-name search over the name-ordered listing —
first entry whose caller reference equals the idempotency token wins and
`Create` caches that zone and writes its ID to status, while the first
entry whose name no longer equals the target domain, or an exhausted
listing, yields the not-found error as the pass failure; any other
creation error is returned unchanged with the state untouched. -/
theorem create_idempotent_already_exists :
    (∀ (env : CreateEnv) (dz : DNSZoneSpec) (st : ActuatorState)
       (e : ProviderError),
       env.createResult = .error e → isAlreadyExists e = true →
       countCreateCalls (Create env dz st).2.2 = 1) ∧
    (∀ (env : CreateEnv) (dz : DNSZoneSpec) (st : ActuatorState)
       (e : ProviderError) (pages : List ListZonesPage),
       env.createResult = .error e → isAlreadyExists e = true →
       env.listZonesResponses = pages.map Except.ok →
       goodPages pages = true →
       (∀ e2, searchByCallerReferenceSpec dz.uid dz.zone
           ((pages.map ListZonesPage.hostedZones).flatten) = .error e2 →
         (Create env dz st).1 = .error e2 ∧
         (Create env dz st).2.1 = st) ∧
       (∀ hz tags, searchByCallerReferenceSpec dz.uid dz.zone
           ((pages.map ListZonesPage.hostedZones).flatten) = .ok hz →
         env.listTagsResult hz.id = .ok tags →
         (Create env dz st).2.1.hostedZone = some hz ∧
         (Create env dz st).2.1.statusZoneID = some hz.id ∧
         (Create env dz st).2.1.currentHostedZoneTags = tags)) ∧
    (∀ (env : CreateEnv) (dz : DNSZoneSpec) (st : ActuatorState)
       (e : ProviderError),
       env.createResult = .error e → isAlreadyExists e = false →
       Create env dz st =
         (.error e, st, [PCall.createZone dz.zone dz.uid])) := by
  refine ⟨?_, ?_, ?_⟩
  · intro env dz st e henv halready
    cases hfind : (findZoneByCallerReference dz.zone dz.uid
        env.listZonesResponses dz.zone none).1 with
    | error e2 =>
      simp only [Create, henv, halready, if_true, hfind]
      refine countCreateCalls_cons_of_rest _ _ ?_ ?_
      · rfl
      · exact noCreate_findZone dz.zone dz.uid env.listZonesResponses
          dz.zone none
    | ok hz =>
      cases hlt : env.listTagsResult hz.id with
      | error e2 =>
        simp only [Create, henv, halready, if_true, hfind, hlt,
          List.cons_append]
        refine countCreateCalls_cons_of_rest _ _ ?_ ?_
        · rfl
        · intro x hx
          simp only [List.mem_append, List.mem_singleton] at hx
          rcases hx with hx | hx
          · exact noCreate_findZone dz.zone dz.uid env.listZonesResponses
              dz.zone none x hx
          · simp [hx, isCreateCall]
      | ok tags =>
        simp only [Create, henv, halready, if_true, hfind, hlt,
          List.cons_append, List.append_assoc]
        refine countCreateCalls_cons_of_rest _ _ ?_ ?_
        · rfl
        · intro x hx
          simp only [List.mem_append, List.mem_singleton, List.mem_cons,
            List.nil_append] at hx
          rcases hx with hx | hx | hx
          · exact noCreate_findZone dz.zone dz.uid env.listZonesResponses
              dz.zone none x hx
          · simp [hx, isCreateCall]
          · exact noCreate_runChangeCalls env.changeTagsOutcome hz.id _ x hx
  · intro env dz st e pages henv halready hresp hgood
    have hrefine := findZone_refines dz.zone dz.uid pages dz.zone none
      hgood
    constructor
    · intro e2 hsearch
      have hfind : (findZoneByCallerReference dz.zone dz.uid
          env.listZonesResponses dz.zone none).1 = .error e2 := by
        rw [hresp, hrefine, hsearch]
      simp [Create, henv, halready, hfind]
    · intro hz tags hsearch htags
      have hfind : (findZoneByCallerReference dz.zone dz.uid
          env.listZonesResponses dz.zone none).1 = .ok hz := by
        rw [hresp, hrefine, hsearch]
      simp [Create, henv, halready, hfind, htags]
  · intro env dz st e henv halready
    simp [Create, henv, halready]

/-- C1 witness: the already-exists scenario — one page whose entry carries
the supplied token — resolves the existing zone with exactly one create
call; a page past the domain name yields not-found; a non-already-exists
creation error is returned unchanged. -/
theorem create_idempotent_already_exists_witness :
    countCreateCalls (Create wCreateEnv wDNSZone wStateUnpopulated).2.2 =
      1 ∧
    (Create wCreateEnv wDNSZone wStateUnpopulated).2.1.hostedZone =
      some ⟨"Z1", "z.example.com.", "token-123"⟩ ∧
    (Create wCreateEnv wDNSZone wStateUnpopulated).2.1.statusZoneID =
      some "Z1" ∧
    (Create wCreateEnvMiss wDNSZone wStateUnpopulated).1 =
      .error (.plain "Hosted zone not found") ∧
    Create wCreateEnvOtherError wDNSZone wStateUnpopulated =
      (.error (.plain "throttled"), wStateUnpopulated,
        [PCall.createZone "z.example.com" "token-123"]) := by
  have h1 := create_idempotent_already_exists.1 wCreateEnv wDNSZone
    wStateUnpopulated (.aws "HostedZoneAlreadyExists" "exists") rfl rfl
  have h2 := (create_idempotent_already_exists.2.1 wCreateEnv wDNSZone
    wStateUnpopulated (.aws "HostedZoneAlreadyExists" "exists")
    [wZonesPage] rfl rfl rfl (by decide)).2
    ⟨"Z1", "z.example.com.", "token-123"⟩ [] (by decide) rfl
  have h3 := (create_idempotent_already_exists.2.1 wCreateEnvMiss wDNSZone
    wStateUnpopulated (.aws "HostedZoneAlreadyExists" "exists")
    [wZonesPageMiss] rfl rfl rfl (by decide)).1
    (.plain "Hosted zone not found") (by decide)
  have h4 := create_idempotent_already_exists.2.2 wCreateEnvOtherError
    wDNSZone wStateUnpopulated (.plain "throttled") rfl rfl
  exact ⟨h1, h2.1, h2.2.1, h3.1, h4⟩

end HiveDNS
